import Mathlib

/- Verification of the deadline / task-router core of the computer-use
   workspace application. Definitions are shallow embeddings of the
   TypeScript sources (SharedMemoryManager.ts, ReporterAgent.ts,
   AgentOrchestrator.ts, CompanionAgent.ts/BaseAgent.ts,
   DockerIsolationManager.ts, VMIsolationManager.ts). Dates are epoch
   milliseconds modelled as Int. JS Math.round on the nonnegative value
   100*k/n is floor(x + 1/2), i.e. (200*k + n) / (2*n) in Nat division;
   JS Math.ceil on an integer ratio is modelled with Int floor division. -/

inductive MicrotaskStatus
  | pending
  | in_progress
  | done
deriving DecidableEq

inductive DeadlineStatus
  | pending
  | in_progress
  | blocked
  | done
deriving DecidableEq

inductive DeadlinePhase
  | planning
  | building
  | accelerating
  | focusing
  | taskforce
deriving DecidableEq

inductive DPriority
  | low
  | medium
  | high
  | critical
deriving DecidableEq

inductive Assignee
  | user
  | agent
  | both
deriving DecidableEq

inductive AgentRole
  | companion
  | coder
  | researcher
  | reporter
deriving DecidableEq

/-- Microtask record from shared/types.ts. -/
structure Microtask where
  id : String
  title : String := ""
  description : Option String := none
  estimatedMinutes : Nat := 30
  assignee : Assignee := .both
  status : MicrotaskStatus
  dueWeek : Int := 1
  contributesTo : String := ""
  dependencies : List String := []
  completedAt : Option Int := none
  result : Option String := none
deriving DecidableEq

/-- AgentContribution record from shared/types.ts (completion fields omitted,
    they are never touched by the embedded operations). -/
structure AgentContribution where
  ctype : String
  description : String
  agent : AgentRole
deriving DecidableEq

/-- Deadline record from shared/types.ts. -/
structure Deadline where
  id : String
  title : String := ""
  description : String := ""
  dueDate : Int
  createdAt : Int := 0
  priority : DPriority := .low
  weeksOut : Int := 0
  phase : DeadlinePhase := .planning
  microtasks : List Microtask
  completedMicrotasks : Nat := 0
  progressPercent : Nat := 0
  agentContributions : List AgentContribution := []
  status : DeadlineStatus := .pending
  tags : List String := []
deriving DecidableEq

def weekMs : Int := 7 * 24 * 60 * 60 * 1000

/-- JS Math.ceil(a / b) for integer a and positive integer b,
    as used for weeksOut in both SharedMemoryManager and ReporterAgent. -/
def jsCeilDiv (a b : Int) : Int := -(Int.fdiv (-a) b)

/-- calculatePhase (SharedMemoryManager.ts) = determinePhase (ReporterAgent.ts). -/
def calculatePhase (weeksOut : Int) : DeadlinePhase :=
  if weeksOut ≥ 10 then .planning
  else if weeksOut ≥ 6 then .building
  else if weeksOut ≥ 3 then .accelerating
  else if weeksOut ≥ 1 then .focusing
  else .taskforce

/-- determinePriority from ReporterAgent.ts. -/
def determinePriority (weeksOut : Int) : DPriority :=
  if weeksOut ≤ 1 then .critical
  else if weeksOut ≤ 3 then .high
  else if weeksOut ≤ 6 then .medium
  else .low

/-- JS Math.round((k / n) * 100) for 0 ≤ k, 0 < n, in exact arithmetic. -/
def jsRoundPct (k n : Nat) : Nat := (200 * k + n) / (2 * n)

def countDone (ms : List Microtask) : Nat :=
  (ms.filter (fun m => m.status == MicrotaskStatus.done)).length

/-- In-place mutation of the first element satisfying p, as done by
    JS Array.prototype.find followed by field assignments. -/
def updateFirstBy (p : α → Bool) (f : α → α) : List α → List α
  | [] => []
  | x :: xs => if p x then f x :: xs else x :: updateFirstBy p f xs

/-- JS truthiness of an optional string (undefined and '' are falsy). -/
def jsTruthy : Option String → Bool
  | none => false
  | some s => !s.isEmpty

/-- The microtask mutation shared by both completeMicrotask implementations:
    status='done', completedAt=new Date(), and result only if truthy. -/
def markMicrotaskDone (now : Int) (res : Option String) (m : Microtask) : Microtask :=
  { m with
    status := .done
    completedAt := some now
    result := if jsTruthy res then res else m.result }

/-- updateDeadlineProgress from SharedMemoryManager.ts: recompute the
    completed count and progress percent from the microtask list, and
    recompute weeksOut and phase from the current time. -/
def updateDeadlineProgress (now : Int) (d : Deadline) : Deadline :=
  let completed := countDone d.microtasks
  let pp := if d.microtasks.length > 0 then jsRoundPct completed d.microtasks.length else 0
  let w := jsCeilDiv (d.dueDate - now) weekMs
  { d with
    completedMicrotasks := completed
    progressPercent := pp
    weeksOut := w
    phase := calculatePhase w }

/-- The per-deadline effect of SharedMemoryManager.completeMicrotask once the
    deadline and microtask have been found. -/
def smmCompleteInDeadline (now : Int) (microtaskId : String) (res : Option String) (d : Deadline) : Deadline :=
  updateDeadlineProgress now
    { d with microtasks := updateFirstBy (fun m => m.id == microtaskId) (markMicrotaskDone now res) d.microtasks }

/-- SharedMemoryManager.completeMicrotask on the deadline database.
    Returns the new database and the boolean result of the method. -/
def SMM_completeMicrotask (now : Int) (db : List Deadline) (deadlineId microtaskId : String) (res : Option String) : List Deadline × Bool :=
  match db.find? (fun d => d.id == deadlineId) with
  | none => (db, false)
  | some d =>
    match d.microtasks.find? (fun m => m.id == microtaskId) with
    | none => (db, false)
    | some _ =>
      (updateFirstBy (fun x => x.id == deadlineId) (smmCompleteInDeadline now microtaskId res) db, true)

/-- The per-deadline effect of ReporterAgent.completeMicrotask once the
    deadline and microtask have been found: the completed count is
    incremented (not recomputed), the percent is derived from the
    incremented count, and the deadline status is updated. -/
def reporterCompleteInDeadline (now : Int) (microtaskId : String) (res : Option String) (d : Deadline) : Deadline :=
  let ms := updateFirstBy (fun m => m.id == microtaskId) (markMicrotaskDone now res) d.microtasks
  let cm := d.completedMicrotasks + 1
  let pp := jsRoundPct cm ms.length
  { d with
    microtasks := ms
    completedMicrotasks := cm
    progressPercent := pp
    status := if pp = 100 then .done else if d.status = .pending then .in_progress else d.status }

/-- ReporterAgent.completeMicrotask on the deadline database. Returns the new
    database and, on success, the progressPercent reported in the result. -/
def Reporter_completeMicrotask (now : Int) (db : List Deadline) (deadlineId microtaskId : String) (res : Option String) : List Deadline × Option Nat :=
  match db.find? (fun d => d.id == deadlineId) with
  | none => (db, none)
  | some d =>
    match d.microtasks.find? (fun m => m.id == microtaskId) with
    | none => (db, none)
    | some _ =>
      (updateFirstBy (fun x => x.id == deadlineId) (reporterCompleteInDeadline now microtaskId res) db,
       some (reporterCompleteInDeadline now microtaskId res d).progressPercent)

/-- JS String.prototype.toLowerCase restricted to ASCII, which covers every
    keyword the classifier and assignee tables use. -/
def toLowerChar (c : Char) : Char :=
  if 65 ≤ c.toNat ∧ c.toNat ≤ 90 then Char.ofNat (c.toNat + 32) else c

def jsToLower (s : String) : String := String.mk (s.data.map toLowerChar)

/-- Plain substring containment, JS String.prototype.includes. -/
def listStartsWith : List Char → List Char → Bool
  | _, [] => true
  | [], _ :: _ => false
  | c :: t, w0 :: w => c = w0 && listStartsWith t w

def listContainsSub (t w : List Char) : Bool :=
  match t with
  | [] => w.isEmpty
  | _ :: t' => listStartsWith t w || listContainsSub t' w

def strContains (t w : String) : Bool := listContainsSub t.data w.data

def agentTaskWords : List String := ["research", "search", "draft", "format", "gather data"]

def userTaskWords : List String := ["define", "review", "decide", "approve", "submit"]

/-- determineAssignee from ReporterAgent.ts. -/
def determineAssignee (taskTitle : String) : Assignee :=
  let lower := jsToLower taskTitle
  if agentTaskWords.any (fun w => strContains lower w) then .agent
  else if userTaskWords.any (fun w => strContains lower w) then .user
  else .both

/-- The four fixed stage templates of ReporterAgent.decomposeMicrotasks:
    name, due week, and the three task titles of each stage. -/
def reporterStages (weeksOut : Int) : List (String × Int × List String) :=
  [("Planning", weeksOut, ["Define scope", "Research similar work", "Create outline"]),
   ("Building", max (weeksOut - 4) 1, ["Draft main content", "Gather data", "Build structure"]),
   ("Refining", max (weeksOut - 2) 1, ["Review draft", "Fill gaps", "Polish"]),
   ("Finalizing", 1, ["Final review", "Format check", "Submit"])]

def mkStageMicrotask (dlTitle : String) (baseId taskIndex : Nat) (stageName : String) (week : Int) (taskTitle : String) : Microtask :=
  { id := "mt-" ++ toString baseId ++ "-" ++ toString taskIndex
    title := taskTitle
    description := some (stageName ++ ": " ++ taskTitle ++ " for " ++ dlTitle)
    estimatedMinutes := 30
    assignee := determineAssignee taskTitle
    status := .pending
    dueWeek := week
    contributesTo := stageName
    dependencies := [] }

/-- ReporterAgent.decomposeMicrotasks: a stage is included when
    0 < week ≤ weeksOut; taskIndex counts only the emitted microtasks. -/
def decomposeMicrotasks (dlTitle : String) (weeksOut : Int) (baseId : Nat) : List Microtask :=
  ((reporterStages weeksOut).foldl
    (fun (acc : List Microtask × Nat) stage =>
      let week := stage.2.1
      if 0 < week ∧ week ≤ weeksOut then
        stage.2.2.foldl
          (fun (acc2 : List Microtask × Nat) tt =>
            (acc2.1 ++ [mkStageMicrotask dlTitle baseId acc2.2 stage.1 week tt], acc2.2 + 1))
          acc
      else acc)
    ([], 0)).1

/-- planAgentContributions from ReporterAgent.ts. -/
def planAgentContributions : List AgentContribution :=
  [{ ctype := "research", description := "Background research", agent := .researcher },
   { ctype := "draft", description := "Initial draft preparation", agent := .reporter },
   { ctype := "review", description := "Code/analysis review", agent := .coder },
   { ctype := "organize", description := "Structure and formatting", agent := .reporter },
   { ctype := "remind", description := "Progress reminders", agent := .companion }]

/-- ReporterAgent.createDeadline: compute weeksOut, decompose microtasks,
    build the deadline record and append it to the database. baseIdD and
    baseIdM stand for the two Date.now() calls used for id generation. -/
def Reporter_createDeadline (now : Int) (baseIdD baseIdM : Nat) (title desc : String) (dueDate : Int) (db : List Deadline) : List Deadline × Deadline :=
  let weeksOut := jsCeilDiv (dueDate - now) weekMs
  let d : Deadline :=
    { id := "deadline-" ++ toString baseIdD
      title := title
      description := desc
      dueDate := dueDate
      createdAt := now
      priority := determinePriority weeksOut
      weeksOut := weeksOut
      phase := calculatePhase weeksOut
      microtasks := decomposeMicrotasks title weeksOut baseIdM
      completedMicrotasks := 0
      progressPercent := 0
      agentContributions := planAgentContributions
      status := .pending
      tags := [] }
  (db ++ [d], d)

inductive Trend
  | improving
  | stable
  | declining
deriving DecidableEq

/-- AssessmentResult from shared/types.ts, restricted to the fields the
    trend computation reads and writes. -/
structure Assessment where
  questionnaire : String
  date : Int
  totalScore : Int
  trend : Option Trend := none
deriving DecidableEq

/-- Stable insertion into a list already sorted by date descending,
    placing the new element after existing elements with ≥ date. -/
def insertByDateDesc (a : Assessment) : List Assessment → List Assessment
  | [] => [a]
  | b :: bs => if b.date ≥ a.date then b :: insertByDateDesc a bs else a :: b :: bs

/-- Stable sort by date descending, the behaviour of
    Array.prototype.sort((a, b) => b.date - a.date). -/
def sortByDateDesc (l : List Assessment) : List Assessment :=
  l.foldl (fun acc a => insertByDateDesc a acc) []

/-- getAssessmentHistory from SharedMemoryManager.ts: filter by
    questionnaire, sort most-recent first, and slice when the limit is
    truthy (a limit of 0 is falsy in JS and means no slicing). -/
def getAssessmentHistory (l : List Assessment) (qid : String) (limit : Option Nat) : List Assessment :=
  let sorted := sortByDateDesc (l.filter (fun a => a.questionnaire == qid))
  match limit with
  | none => sorted
  | some n => if n = 0 then sorted else sorted.take n

/-- The trend computation inside recordAssessment. The JS code compares
    score - sum/len (float) against ±2; for integer scores this equals the
    exact rational comparison, written here cross-multiplied over Int. -/
def trendOf (score : Int) (prevScores : List Int) : Option Trend :=
  if 2 ≤ prevScores.length then
    let n : Int := prevScores.length
    let s : Int := prevScores.sum
    if n * score - s < -2 * n then some .improving
    else if 2 * n < n * score - s then some .declining
    else some .stable
  else none

/-- The totalScore values of `this.getAssessmentHistory(questionnaire, 3)`,
    the up-to-3 most recent prior same-questionnaire assessments read by
    recordAssessment. -/
def priorScores (l : List Assessment) (qid : String) : List Int :=
  (getAssessmentHistory l qid (some 3)).map (fun p => p.totalScore)

/-- recordAssessment from SharedMemoryManager.ts: derive the trend from the
    up-to-3 most recent prior same-questionnaire assessments, then append
    the new assessment. -/
def recordAssessment (now : Int) (l : List Assessment) (qid : String) (score : Int) : List Assessment × Assessment :=
  let a : Assessment :=
    { questionnaire := qid
      date := now
      totalScore := score
      trend := trendOf score (priorScores l qid) }
  (l ++ [a], a)

/-- Contact record from shared/types.ts, restricted to the fields the
    embedded mutators touch. -/
structure Contact where
  id : String
  name : String := ""
  email : String := ""
  notes : String := ""
deriving DecidableEq

/-- JournalEntry record from shared/types.ts. -/
structure JournalEntryM where
  id : String
  timestamp : Int
  content : String := ""
  mood : Option Int := none
  energy : Option Int := none
  tags : List String := []
deriving DecidableEq

/-- The in-memory state of SharedMemoryManager together with its dirty flag
    and auto-save timer. Opaque payloads (current task, tool actions,
    messages, user profile, project context) are modelled as strings. -/
structure SMMState where
  currentTask : Option String := none
  activeFiles : List String := []
  recentActions : List String := []
  messages : List String := []
  keyFacts : List String := []
  summary : Option String := none
  contacts : List Contact := []
  deadlines : List Deadline := []
  journalEntries : List JournalEntryM := []
  assessments : List Assessment := []
  userProfile : String := ""
  project : String := ""
  isDirty : Bool := false
  autoSaveTimer : Bool := true
deriving DecidableEq

/-- JS `config.autoSaveInterval || 60000`: undefined and 0 are falsy. -/
def effectiveAutoSaveInterval (cfg : Option Nat) : Nat :=
  match cfg with
  | none => 60000
  | some v => if v = 0 then 60000 else v

def SMM_setCurrentTask (s : SMMState) (t : String) : SMMState :=
  { s with currentTask := some t, isDirty := true }

def SMM_clearCurrentTask (s : SMMState) : SMMState :=
  { s with currentTask := none }

def SMM_addActiveFile (s : SMMState) (f : String) : SMMState :=
  if s.activeFiles.contains f then s else { s with activeFiles := s.activeFiles ++ [f] }

def SMM_removeActiveFile (s : SMMState) (f : String) : SMMState :=
  { s with activeFiles := s.activeFiles.filter (fun x => x ≠ f) }

def SMM_recordAction (s : SMMState) (a : String) : SMMState :=
  let l := s.recentActions ++ [a]
  { s with recentActions := if l.length > 50 then l.drop (l.length - 50) else l }

def SMM_addMessage (s : SMMState) (m : String) : SMMState :=
  { s with messages := s.messages ++ [m], isDirty := true }

def SMM_addKeyFact (s : SMMState) (fact : String) : SMMState :=
  if s.keyFacts.contains fact then s
  else { s with keyFacts := s.keyFacts ++ [fact], isDirty := true }

def SMM_setSummary (s : SMMState) (v : String) : SMMState :=
  { s with summary := some v, isDirty := true }

def SMM_addContact (s : SMMState) (idStr : String) (c : Contact) : SMMState :=
  { s with contacts := s.contacts ++ [{ c with id := idStr }], isDirty := true }

def SMM_updateContact (s : SMMState) (cid : String) (f : Contact → Contact) : SMMState :=
  if s.contacts.any (fun c => c.id == cid) then
    { s with contacts := updateFirstBy (fun c => c.id == cid) f s.contacts, isDirty := true }
  else s

def SMM_removeContact (s : SMMState) (cid : String) : SMMState × Bool :=
  if (s.contacts.filter (fun c => c.id ≠ cid)).length ≠ s.contacts.length then
    ({ s with contacts := s.contacts.filter (fun c => c.id ≠ cid), isDirty := true }, true)
  else (s, false)

/-- SharedMemoryManager.addDeadline: the id/createdAt/weeksOut/phase and the
    two progress counters are derived; the rest is taken from the input. -/
def SMM_addDeadline (now : Int) (s : SMMState) (idStr : String) (input : Deadline) : SMMState :=
  let w := jsCeilDiv (input.dueDate - now) weekMs
  let d : Deadline :=
    { input with
      id := idStr
      createdAt := now
      weeksOut := w
      phase := calculatePhase w
      completedMicrotasks := 0
      progressPercent := 0 }
  { s with deadlines := s.deadlines ++ [d], isDirty := true }

def SMM_updateDeadline (s : SMMState) (did : String) (f : Deadline → Deadline) : SMMState :=
  if s.deadlines.any (fun d => d.id == did) then
    { s with deadlines := updateFirstBy (fun d => d.id == did) f s.deadlines, isDirty := true }
  else s

def SMM_addMicrotask (now : Int) (s : SMMState) (did : String) (idStr : String) (m : Microtask) : SMMState :=
  if s.deadlines.any (fun d => d.id == did) then
    { s with
      deadlines := updateFirstBy (fun d => d.id == did)
        (fun d => updateDeadlineProgress now { d with microtasks := d.microtasks ++ [{ m with id := idStr }] })
        s.deadlines
      isDirty := true }
  else s

def SMM_completeMicrotaskState (now : Int) (s : SMMState) (did mid : String) (res : Option String) : SMMState × Bool :=
  if (SMM_completeMicrotask now s.deadlines did mid res).2 then
    ({ s with deadlines := (SMM_completeMicrotask now s.deadlines did mid res).1, isDirty := true }, true)
  else ({ s with deadlines := (SMM_completeMicrotask now s.deadlines did mid res).1 }, false)

def SMM_addJournalEntry (s : SMMState) (e : JournalEntryM) : SMMState :=
  { s with journalEntries := s.journalEntries ++ [e], isDirty := true }

def SMM_recordAssessment (now : Int) (s : SMMState) (qid : String) (score : Int) : SMMState :=
  { s with assessments := (recordAssessment now s.assessments qid score).1, isDirty := true }

def SMM_updateUserProfile (s : SMMState) (u : String) : SMMState :=
  { s with userProfile := u, isDirty := true }

def SMM_setProjectContext (s : SMMState) (p : String) : SMMState :=
  { s with project := p }

/-- One firing of the auto-save interval: save only when dirty, then clear
    the flag. The Bool records whether saveAll ran. -/
def SMM_autoSaveTick (s : SMMState) : SMMState × Bool :=
  if s.isDirty then ({ s with isDirty := false }, true) else (s, false)

/-- dispose: clear the timer and force one final flush when dirty
    (the flag itself is not cleared by dispose). -/
def SMM_dispose (s : SMMState) : SMMState × Bool :=
  ({ s with autoSaveTimer := false }, s.isDirty)

/-- State of VMIsolationManager: the running flag, the session id, whether
    the bridge process handle is set, and the pending-request map keyed by
    command id (iteration order is insertion order, as for a JS Map). -/
structure VMState where
  running : Bool := false
  sessionId : Option String := none
  bridgeAlive : Bool := false
  pending : List String := []
deriving DecidableEq

/-- One pass of the cleanup loop over the pending map: each entry is
    rejected with the synthetic error and deleted from the map. -/
def cleanupLoop : List String → List String → List String × List (String × String)
  | remaining, [] => (remaining, [])
  | remaining, id :: rest =>
    let step := cleanupLoop (remaining.erase id) rest
    (step.1, (id, "VM stopped") :: step.2)

/-- VMIsolationManager.cleanup: clear the lifecycle fields, kill the bridge,
    reject every pending command with the synthetic 'VM stopped' error while
    deleting it from the map, and emit the 'stopped' lifecycle event.
    Returns the new state, the rejections, and the emitted events. -/
def VM_cleanup (s : VMState) : VMState × List (String × String) × List String :=
  let loop := cleanupLoop s.pending s.pending
  ({ running := false, sessionId := none, bridgeAlive := false, pending := loop.1 },
   loop.2,
   ["stopped"])

/-- The bridge 'exit' handler installed in startBridge: after the ready
    handshake (initialized = true) it simply runs cleanup; before it, it
    additionally rejects the startup promise. -/
def VM_onBridgeExit (initialized : Bool) (code : Int) (s : VMState) : VMState × List (String × String) × List String × Option String :=
  let (s', rejections, events) := VM_cleanup s
  (s', rejections, events,
   if initialized then none else some ("Bridge exited with code " ++ toString code))

structure ExecResult where
  stdout : String := ""
  stderr : String := ""
  exitCode : Int := 0
deriving DecidableEq

/-- Settlement of the promise built in DockerIsolationManager.execute: a
    setTimeout of the requested timeout races the stream 'end' event; the
    first event settles the promise, so a command whose output stream ends
    at time c resolves at c when c is before the timeout and otherwise the
    timer rejects at the timeout. completesAt = none is a command that
    never finishes. -/
inductive DockerExecOutcome
  | notRunningError
  | resolved (time : Nat) (r : ExecResult)
  | timeoutError (time : Nat) (msg : String)
deriving DecidableEq

def dockerExecute (running : Bool) (completesAt : Option Nat) (r : ExecResult) (timeoutOpt : Option Nat) : DockerExecOutcome :=
  if running then
    match completesAt with
    | some c =>
      if c < timeoutOpt.getD 30000 then .resolved c r
      else .timeoutError (timeoutOpt.getD 30000)
        ("Command timeout after " ++ toString (timeoutOpt.getD 30000) ++ "ms")
    | none =>
      .timeoutError (timeoutOpt.getD 30000)
        ("Command timeout after " ++ toString (timeoutOpt.getD 30000) ++ "ms")
  else .notRunningError

/-- Settlement of the promise built in VMIsolationManager.sendCommand: a
    fixed 60000 ms setTimeout rejects the pending entry unless a bridge
    response settled it first. responseAt = none is a bridge response that
    never arrives. -/
inductive VMCmdOutcome
  | rejectedNoBridge
  | resolvedAt (time : Nat)
  | timedOut (time : Nat) (msg : String)
deriving DecidableEq

def vmSendCommand (cmd : String) (bridgeUp : Bool) (responseAt : Option Nat) : VMCmdOutcome :=
  if bridgeUp then
    match responseAt with
    | some rsp =>
      if rsp < 60000 then .resolvedAt rsp
      else .timedOut 60000 ("Command timeout: " ++ cmd)
    | none => .timedOut 60000 ("Command timeout: " ++ cmd)
  else .rejectedNoBridge

/-- Word characters of the JS regex \b boundary: [A-Za-z0-9_]. -/
def isWordChar (c : Char) : Bool :=
  let n := c.toNat
  (65 ≤ n && n ≤ 90) || (97 ≤ n && n ≤ 122) || (48 ≤ n && n ≤ 57) || n == 95

def boundaryBefore : Option Char → Bool
  | none => true
  | some c => !isWordChar c

def boundaryAfterOk : List Char → Bool
  | [] => true
  | c :: _ => !isWordChar c

/-- Strip the literal w from the front of t. -/
def dropPat : List Char → List Char → Option (List Char)
  | [], t => some t
  | _ :: _, [] => none
  | w0 :: w, c :: t => if c = w0 then dropPat w t else none

/-- Scan t for an occurrence of the literal w delimited by \b word
    boundaries on both sides; pre is the character before the scan point. -/
def atHere (w : List Char) (pre : Option Char) (t : List Char) : Bool :=
  boundaryBefore pre &&
    (match dropPat w t with
     | some rest => boundaryAfterOk rest
     | none => false)

def scanWordB (w : List Char) : Option Char → List Char → Bool
  | pre, [] => atHere w pre []
  | pre, c :: t' => atHere w pre (c :: t') || scanWordB w (some c) t'

/-- Whether the lowercased text t matches \b<w>\b (for a literal w that
    starts and ends with word characters, as all classifier keywords do). -/
def containsWordB (t w : String) : Bool := scanWordB w.data none t.data

/-- Keyword rules of AgentOrchestrator.analyzeIntent, in source order. Each
    regex \b(w1|...|wn)\b is the set of its word-boundary literals;
    check[- ]?in expands to its three spellings and what('s| is) happening
    to its two. -/
def ruleCode : List String :=
  ["code", "debug", "implement", "fix", "create", "write", "script", "function", "class", "module"]

def ruleResearch : List String :=
  ["search", "find", "research", "paper", "article", "literature", "pubmed", "review"]

def ruleEmail : List String :=
  ["email", "write to", "message", "contact", "send", "draft"]

def ruleDeadlineWords : List String :=
  ["deadline", "due", "submit", "delivery", "milestone"]

def ruleJournal : List String :=
  ["feeling", "mood", "journal", "checkin", "check-in", "check in", "how am i", "energy"]

def ruleQuestionnaire : List String :=
  ["phq", "gad", "asrs", "questionnaire", "assessment", "screening"]

def whatsHappening : String :=
  String.mk ("what".data ++ [Char.ofNat 39] ++ "s happening".data)

def ruleDigest : List String :=
  ["digest", "summary", "status", whatsHappening, "what is happening", "update"]

def ruleMatches (lowered : String) (rule : List String) : Bool :=
  rule.any (fun w => containsWordB lowered w)

/-- AgentOrchestrator.analyzeIntent: lowercase the text, then test the
    ordered keyword rules, first match wins; the returned string is the
    intent type tag. -/
def analyzeIntent (content : String) : String :=
  let l := jsToLower content
  if ruleMatches l ruleCode then "code"
  else if ruleMatches l ruleResearch then "research"
  else if ruleMatches l ruleEmail then "email"
  else if ruleMatches l ruleDeadlineWords then "deadline"
  else if ruleMatches l ruleJournal then "journal"
  else if ruleMatches l ruleQuestionnaire then "questionnaire"
  else if ruleMatches l ruleDigest then "digest"
  else "conversation"

/-- The static routing table of AgentOrchestrator.routeToAgent. -/
def routingMap : List (String × AgentRole) :=
  [("code", .coder), ("debug", .coder), ("implement", .coder),
   ("research", .researcher), ("literature_review", .researcher), ("summarize", .researcher),
   ("email", .reporter), ("deadline", .reporter), ("digest", .reporter),
   ("journal", .companion), ("check_in", .companion), ("questionnaire", .companion),
   ("conversation", .companion)]

def routeToAgent (intentType : String) : AgentRole :=
  match routingMap.lookup intentType with
  | some r => r
  | none => .companion

inductive TaskPriority
  | low
  | normal
  | high
  | critical
deriving DecidableEq

/-- The input payload of an AgentTask, restricted to the fields the
    companion handlers read. -/
structure TaskInput where
  raw : String := ""
  questionnaire : Option String := none
  content : Option String := none
  mood : Option Int := none
  energy : Option Int := none
  deadlineId : Option String := none
deriving DecidableEq

/-- AgentTask from BaseAgent.ts. -/
structure AgentTask where
  id : String
  ttype : String
  input : TaskInput := {}
  priority : TaskPriority := .normal
  deadline : Option Int := none
  delegatedBy : Option AgentRole := none
deriving DecidableEq

/-- JS Map.set: replace in place when the key exists, append otherwise. -/
def setAssoc {α : Type} (m : List (String × α)) (k : String) (v : α) : List (String × α) :=
  if m.any (fun e => e.1 == k) then m.map (fun e => bif e.1 == k then (k, v) else e)
  else m ++ [(k, v)]

inductive CompanionMode
  | normal
  | deadline_taskforce
  | check_in
deriving DecidableEq

/-- State of CompanionAgent: its mode, the registered specialist pool with
    each specialist's availability (status === 'idle'), the
    pendingDelegations map, and the pieces of shared memory its
    self-handlers touch. -/
structure CompanionState where
  mode : CompanionMode := .normal
  agentPool : List (AgentRole × Bool) := []
  pendingDelegations : List (String × AgentRole × AgentTask) := []
  journalEntries : List JournalEntryM := []
  keyFacts : List String := []
  questionnaires : List String := []
  deadlines : List Deadline := []
deriving DecidableEq

inductive CompEvent
  | invoked (role : AgentRole) (task : AgentTask)
  | delegationEvt (src : AgentRole) (dst : AgentRole) (task : AgentTask)
  | deadlineModeEvt (active : Bool)
deriving DecidableEq

inductive DelegationOutcome
  | handledDirectly
  | queuedBusy (role : AgentRole)
  | invokedAgent (role : AgentRole) (forwarded : AgentTask)
deriving DecidableEq

/-- The task actually passed to the specialist: the spread
    { ...task, delegatedBy: this.role } with this.role = 'companion'. -/
def forwardedTask (t : AgentTask) : AgentTask :=
  { t with delegatedBy := some .companion }

def poolLookup (pool : List (AgentRole × Bool)) (role : AgentRole) : Option Bool :=
  (pool.find? (fun e => e.1 == role)).map (fun e => e.2)

/-- CompanionAgent.delegateToAgent: unknown specialist → handle directly;
    busy specialist → queue the original task in pendingDelegations and
    report success with a queued output; idle specialist → emit the
    delegation event and invoke it on the forwarded task. -/
def delegateToAgent (s : CompanionState) (role : AgentRole) (task : AgentTask) : CompanionState × DelegationOutcome × List CompEvent :=
  match poolLookup s.agentPool role with
  | none => (s, .handledDirectly, [])
  | some available =>
    if available then
      (s, .invokedAgent role (forwardedTask task), [.delegationEvt .companion role task])
    else
      ({ s with pendingDelegations := setAssoc s.pendingDelegations task.id (role, task) },
       .queuedBusy role, [])

/-- The switch in CompanionAgent.execute mapping a task type to the
    specialist it is delegated to; none = self-handled or default. -/
def delegationTarget (ttype : String) : Option AgentRole :=
  if ["code", "debug", "implement", "review_code"].contains ttype then some .coder
  else if ["search", "research", "summarize", "literature_review", "fact_check"].contains ttype then some .researcher
  else if ["email", "deadline", "report", "digest"].contains ttype then some .reporter
  else none

/-- Result of CompanionAgent.execute, restricted to the fields the claims
    mention. -/
structure CompResult where
  success : Bool
  queued : Bool := false
  queuedAgent : Option AgentRole := none
deriving DecidableEq

/-- CompanionAgent.handleCheckIn: append a check-in entry to the journal. -/
def companionCheckIn (s : CompanionState) (nowId : Int) : CompanionState :=
  { s with journalEntries := s.journalEntries ++
      [{ id := "checkin-" ++ toString nowId, timestamp := nowId, content := "Check-in initiated" }] }

def companionAddKeyFact (s : CompanionState) (fact : String) : CompanionState :=
  if s.keyFacts.contains fact then s else { s with keyFacts := s.keyFacts ++ [fact] }

/-- CompanionAgent.handleJournalEntry: append the entry, then record key
    facts for truthy low mood/energy values. -/
def companionJournal (s : CompanionState) (nowId : Int) (t : AgentTask) : CompanionState :=
  let s1 := { s with journalEntries := s.journalEntries ++
      [{ id := "journal-" ++ toString nowId, timestamp := nowId,
         content := (t.input.content).getD "", mood := t.input.mood,
         energy := t.input.energy }] }
  let s2 := match t.input.mood with
    | some m => if m ≠ 0 ∧ m ≤ 3 then companionAddKeyFact s1 ("Low mood reported on " ++ toString nowId) else s1
    | none => s1
  match t.input.energy with
  | some e => if e ≠ 0 ∧ e ≤ 3 then companionAddKeyFact s2 ("Low energy reported on " ++ toString nowId) else s2
  | none => s2

/-- CompanionAgent.activateDeadlineMode: on a known deadline switch the mode
    and emit the deadline-mode event, once plus once per pool member. -/
def companionActivateDeadlineMode (s : CompanionState) (t : AgentTask) : CompanionState × CompResult × List CompEvent :=
  if s.deadlines.any (fun d => d.id == (t.input.deadlineId).getD "") then
    ({ s with mode := .deadline_taskforce },
     { success := true },
     CompEvent.deadlineModeEvt true :: s.agentPool.map (fun _ => CompEvent.deadlineModeEvt true))
  else (s, { success := false }, [])

/-- CompanionAgent.execute: route by task type to a delegation or a
    self-handler, defaulting to handleDirectly. -/
def companionExecute (s : CompanionState) (nowId : Int) (task : AgentTask) : CompanionState × CompResult × List CompEvent :=
  match delegationTarget task.ttype with
  | some role =>
    match (delegateToAgent s role task).2.1 with
    | .handledDirectly =>
      ((delegateToAgent s role task).1, { success := true }, (delegateToAgent s role task).2.2)
    | .queuedBusy r =>
      ((delegateToAgent s role task).1, { success := true, queued := true, queuedAgent := some r },
       (delegateToAgent s role task).2.2)
    | .invokedAgent r fwd =>
      ((delegateToAgent s role task).1, { success := true },
       (delegateToAgent s role task).2.2 ++ [CompEvent.invoked r fwd])
  | none =>
    if task.ttype = "check_in" then (companionCheckIn s nowId, { success := true }, [])
    else if task.ttype = "questionnaire" then
      (s, { success := s.questionnaires.contains ((task.input.questionnaire).getD "") }, [])
    else if task.ttype = "journal" then (companionJournal s nowId task, { success := true }, [])
    else if task.ttype = "activate_deadline_mode" then companionActivateDeadlineMode s task
    else (s, { success := true }, [])

/-- Map.set on the agent pool keyed by role. -/
def setAssocRole (pool : List (AgentRole × Bool)) (role : AgentRole) (available : Bool) : List (AgentRole × Bool) :=
  if pool.any (fun e => e.1 == role) then pool.map (fun e => bif e.1 == role then (role, available) else e)
  else pool ++ [(role, available)]

/-- The operations of the companion besides execute. -/
inductive CompanionOp
  | run (nowId : Int) (task : AgentTask)
  | registerAgent (role : AgentRole) (available : Bool)
  | unregisterAgent (role : AgentRole)
  | deactivateDeadlineMode

def companionStep (op : CompanionOp) (s : CompanionState) : CompanionState × List CompEvent :=
  match op with
  | .run nowId task =>
    let r := companionExecute s nowId task
    (r.1, r.2.2)
  | .registerAgent role available =>
    ({ s with agentPool := setAssocRole s.agentPool role available }, [])
  | .unregisterAgent role =>
    ({ s with agentPool := s.agentPool.filter (fun e => !(e.1 == role)) }, [])
  | .deactivateDeadlineMode =>
    ({ s with mode := .normal }, [CompEvent.deadlineModeEvt false])

/-- Standard base64 alphabet: index 0..63 to character. -/
def sixToChar (k : Nat) : Char :=
  if k < 26 then Char.ofNat (65 + k)
  else if k < 52 then Char.ofNat (97 + (k - 26))
  else if k < 62 then Char.ofNat (48 + (k - 52))
  else if k = 62 then Char.ofNat 43
  else Char.ofNat 47

def charToSix (c : Char) : Option Nat :=
  let n := c.toNat
  if 65 ≤ n ∧ n ≤ 90 then some (n - 65)
  else if 97 ≤ n ∧ n ≤ 122 then some (n - 97 + 26)
  else if 48 ≤ n ∧ n ≤ 57 then some (n - 48 + 52)
  else if n = 43 then some 62
  else if n = 47 then some 63
  else none

/-- Base64 encoding of a byte sequence (Buffer.prototype.toString('base64')):
    three bytes become four alphabet characters; a trailing group of two or
    one byte is padded with '=' respectively '=='. -/
def b64Encode : List Nat → List Char
  | [] => []
  | [a] => [sixToChar (a / 4), sixToChar (a % 4 * 16), Char.ofNat 61, Char.ofNat 61]
  | [a, b] => [sixToChar (a / 4), sixToChar (a % 4 * 16 + b / 16), sixToChar (b % 16 * 4), Char.ofNat 61]
  | a :: b :: c :: rest =>
    sixToChar (a / 4) :: sixToChar (a % 4 * 16 + b / 16) ::
      sixToChar (b % 16 * 4 + c / 64) :: sixToChar (c % 64) :: b64Encode rest

/-- Base64 decoding (Buffer.from(s, 'base64') / base64 -d) of a padded
    base64 text, four characters at a time. -/
def b64Decode : List Char → Option (List Nat)
  | [] => some []
  | c1 :: c2 :: c3 :: c4 :: rest =>
    match charToSix c1, charToSix c2 with
    | some k1, some k2 =>
      if c3 = Char.ofNat 61 then
        if c4 = Char.ofNat 61 ∧ rest = [] then some [k1 * 4 + k2 / 16] else none
      else
        match charToSix c3 with
        | some k3 =>
          if c4 = Char.ofNat 61 then
            if rest = [] then some [k1 * 4 + k2 / 16, k2 % 16 * 16 + k3 / 4] else none
          else
            match charToSix c4, b64Decode rest with
            | some k4, some tail =>
              some ((k1 * 4 + k2 / 16) :: (k2 % 16 * 16 + k3 / 4) :: (k3 % 4 * 64 + k4) :: tail)
            | _, _ => none
        | none => none
    | _, _ => none
  | _ => none

/-- File store of a running backend (container filesystem or VM disk),
    keyed by absolute path. -/
structure BackendFS where
  files : List (String × List Nat) := []
deriving DecidableEq

/-- DockerIsolationManager.writeFile: base64-encode the buffer and run
    mkdir -p dir && echo b64 | base64 -d > path inside the container, so the
    stored file is the shell's decoding of the manager's encoding.
    Fails when the container is not running (execute throws). -/
def dockerWriteFile (running : Bool) (fs : BackendFS) (p : String) (bytes : List Nat) : Option BackendFS :=
  if running then
    some { files := setAssoc fs.files p ((b64Decode (b64Encode bytes)).getD []) }
  else none

/-- DockerIsolationManager.readFile: getArchive streams a tar of the file
    and the extracted entry is its exact byte content. -/
def dockerReadFile (running : Bool) (fs : BackendFS) (p : String) : Option (List Nat) :=
  if running then fs.files.lookup p else none

/-- VMIsolationManager.writeFile: send write_file with the base64-encoded
    content; the bridge stores its decoding. -/
def vmWriteFile (running : Bool) (fs : BackendFS) (p : String) (bytes : List Nat) : Option BackendFS :=
  if running then
    some { files := setAssoc fs.files p ((b64Decode (b64Encode bytes)).getD []) }
  else none

/-- VMIsolationManager.readFile: the bridge answers read_file with the
    base64 encoding of the stored bytes and the manager decodes it with
    Buffer.from(content, 'base64'). -/
def vmReadFile (running : Bool) (fs : BackendFS) (p : String) : Option (List Nat) :=
  if running then
    match fs.files.lookup p with
    | some stored => b64Decode (b64Encode stored)
    | none => none
  else none


/-- Fixture: a deadline with a single pending microtask. -/
def dOneTask : Deadline :=
  { id := "d", dueDate := 0, microtasks := [{ id := "a", status := .pending }] }

/-- Fixture: a deadline with two pending microtasks. -/
def dTwoTasks : Deadline :=
  { id := "d", dueDate := 0, microtasks := [{ id := "a", status := .pending }, { id := "b", status := .pending }] }

/-- Fixture: two prior phq-9 assessments with total scores 0 (older) and 1
    (newer). -/
def c7hist : List Assessment :=
  [{ questionnaire := "phq-9", date := 1, totalScore := 0 },
   { questionnaire := "phq-9", date := 2, totalScore := 1 }]

/-- Fixture: a clean (not dirty) memory state with a current task set. -/
def c5state : SMMState := { currentTask := some "t" }


/- Helper lemmas shared by the claim theorems. -/

theorem length_updateFirstBy (p : α → Bool) (f : α → α) : ∀ l : List α, (updateFirstBy p f l).length = l.length := by
  intro l
  induction l with
  | nil => rfl
  | cons x xs ih =>
    simp only [updateFirstBy]
    split <;> simp [ih]

theorem lookup_map_set {α : Type} (k : String) (v : α) : ∀ m : List (String × α),
    m.any (fun e => e.1 == k) = true →
    (m.map (fun e => bif e.1 == k then (k, v) else e)).lookup k = some v := by
  intro m
  induction m with
  | nil => simp
  | cons e rest ih =>
    intro h
    by_cases hk : e.1 = k
    · have hk' : (e.1 == k) = true := by simpa using hk
      simp [List.lookup, hk']
    · have hk' : (e.1 == k) = false := by simpa using hk
      have hk2 : (k == e.1) = false := beq_eq_false_iff_ne.mpr (fun hh => hk hh.symm)
      simp only [List.any_cons, hk', Bool.false_or] at h
      simp [List.lookup, hk', hk2, ih h]

theorem lookup_append_absent {α : Type} (k : String) : ∀ (m l : List (String × α)),
    m.any (fun e => e.1 == k) = false → (m ++ l).lookup k = l.lookup k := by
  intro m l
  induction m with
  | nil => simp
  | cons e rest ih =>
    intro h
    simp only [List.any_cons, Bool.or_eq_false_iff] at h
    have hne : ¬ e.1 = k := by simpa using h.1
    have hk2 : (k == e.1) = false := beq_eq_false_iff_ne.mpr (fun hh => hne hh.symm)
    simp [List.lookup, hk2, ih h.2]

theorem lookup_setAssoc {α : Type} (m : List (String × α)) (k : String) (v : α) :
    (setAssoc m k v).lookup k = some v := by
  unfold setAssoc
  by_cases h : m.any (fun e => e.1 == k)
  · simp only [h, if_true]
    exact lookup_map_set k v m h
  · have h2 : m.any (fun e => e.1 == k) = false := Bool.eq_false_iff.mpr h
    simp only [h2, Bool.false_eq_true, if_false]
    rw [lookup_append_absent k m [(k, v)] h2]
    simp [List.lookup]

theorem charToSix_sixToChar : ∀ k, k < 64 → charToSix (sixToChar k) = some k := by decide

theorem sixToChar_ne_pad : ∀ k, k < 64 → ¬ sixToChar k = Char.ofNat 61 := by decide

theorem b64_decode_encode : ∀ (bs : List Nat), (∀ x ∈ bs, x < 256) → b64Decode (b64Encode bs) = some bs
  | [], _ => by simp [b64Encode, b64Decode]
  | [a], h => by
    have ha : a < 256 := h a (by simp)
    have h1 := charToSix_sixToChar (a / 4) (by omega)
    have h2 := charToSix_sixToChar (a % 4 * 16) (by omega)
    simp [b64Encode, b64Decode, h1, h2]
    omega
  | [a, b], h => by
    have ha : a < 256 := h a (by simp)
    have hb : b < 256 := h b (by simp)
    have h1 := charToSix_sixToChar (a / 4) (by omega)
    have h2 := charToSix_sixToChar (a % 4 * 16 + b / 16) (by omega)
    have h3 := charToSix_sixToChar (b % 16 * 4) (by omega)
    have h3ne := sixToChar_ne_pad (b % 16 * 4) (by omega)
    simp [b64Encode, b64Decode, h1, h2, h3, h3ne]
    omega
  | a :: b :: c :: rest, h => by
    have ha : a < 256 := h a (by simp)
    have hb : b < 256 := h b (by simp)
    have hc : c < 256 := h c (by simp)
    have ih := b64_decode_encode rest
      (fun x hx => h x (List.mem_cons_of_mem _ (List.mem_cons_of_mem _ (List.mem_cons_of_mem _ hx))))
    have h1 := charToSix_sixToChar (a / 4) (by omega)
    have h2 := charToSix_sixToChar (a % 4 * 16 + b / 16) (by omega)
    have h3 := charToSix_sixToChar (b % 16 * 4 + c / 64) (by omega)
    have h4 := charToSix_sixToChar (c % 64) (by omega)
    have h3ne := sixToChar_ne_pad (b % 16 * 4 + c / 64) (by omega)
    have h4ne := sixToChar_ne_pad (c % 64) (by omega)
    simp [b64Encode, b64Decode, h1, h2, h3, h4, h3ne, h4ne, ih]
    omega

/-- C9. Round-trip: writeFile(p, bytes) then readFile(p) on the same
    running backend (container or VM) returns exactly bytes, for every byte
    sequence including NUL bytes: the container path round-trips the bytes
    through base64 into the container shell and back via the archive
    primitive, the VM path through base64 over the bridge protocol in both
    directions. -/
theorem C9_write_read_roundtrip (fs : BackendFS) (p : String) (bytes : List Nat)
    (hbytes : ∀ x ∈ bytes, x < 256) :
    ((dockerWriteFile true fs p bytes).bind (fun fs2 => dockerReadFile true fs2 p) = some bytes) ∧
    ((vmWriteFile true fs p bytes).bind (fun fs2 => vmReadFile true fs2 p) = some bytes) := by
  have hde := b64_decode_encode bytes hbytes
  constructor
  · simp only [dockerWriteFile, if_pos rfl, Option.bind_some, dockerReadFile, hde, Option.getD_some]
    exact lookup_setAssoc fs.files p bytes
  · simp only [vmWriteFile, if_pos rfl, Option.bind_some, vmReadFile, hde, Option.getD_some,
      if_true, Option.some_bind, lookup_setAssoc fs.files p bytes]

/-- Witness for C9 at a concrete byte sequence that contains a NUL byte. -/
theorem C9_write_read_roundtrip_witness :
    ((dockerWriteFile true {} "/mnt/user-data/x.bin" [0, 255, 10, 0]).bind
        (fun fs2 => dockerReadFile true fs2 "/mnt/user-data/x.bin") = some [0, 255, 10, 0]) ∧
    ((vmWriteFile true {} "/mnt/user-data/x.bin" [0, 255, 10, 0]).bind
        (fun fs2 => vmReadFile true fs2 "/mnt/user-data/x.bin") = some [0, 255, 10, 0]) :=
  C9_write_read_roundtrip {} "/mnt/user-data/x.bin" [0, 255, 10, 0] (by decide)

/-- C1 counterexample. The claim fails on the code in three ways, all at
    concrete inputs: (1) SharedMemoryManager.completeMicrotask never sets
    the deadline status, so completing the only microtask yields
    progressPercent 100 with status still 'pending'; (2) completing only
    the strict proper subset {a} of {a, b} (the same microtask twice)
    through ReporterAgent.completeMicrotask yields progressPercent 100 and
    status 'done'; (3) in that run completedMicrotasks is 2 while only one
    list entry is done, so the count was incremented, not recomputed from
    the list. -/
theorem C1_counterexample :
    ((SMM_completeMicrotask 0 [dOneTask] "d" "a" none).1.head?.map Deadline.progressPercent = some 100 ∧
     (SMM_completeMicrotask 0 [dOneTask] "d" "a" none).1.head?.map Deadline.status ≠ some DeadlineStatus.done) ∧
    ((Reporter_completeMicrotask 0 (Reporter_completeMicrotask 0 [dTwoTasks] "d" "a" none).1 "d" "a" none).1.head?.map
        Deadline.progressPercent = some 100 ∧
     (Reporter_completeMicrotask 0 (Reporter_completeMicrotask 0 [dTwoTasks] "d" "a" none).1 "d" "a" none).1.head?.map
        Deadline.status = some DeadlineStatus.done ∧
     (Reporter_completeMicrotask 0 (Reporter_completeMicrotask 0 [dTwoTasks] "d" "a" none).1 "d" "a" none).1.head?.map
        Deadline.completedMicrotasks = some 2 ∧
     (Reporter_completeMicrotask 0 (Reporter_completeMicrotask 0 [dTwoTasks] "d" "a" none).1 "d" "a" none).1.head?.map
        (fun d => countDone d.microtasks) = some 1) := by
  decide

/-- C1 as amended. In SharedMemoryManager.completeMicrotask the deadline
    status is left unchanged and completedMicrotasks/progressPercent are
    always recomputed from the microtask list; with the JS rounding,
    completing all n ≥ 1 microtasks gives percent 100 and a strict subset
    gives percent < 100 whenever the deadline has fewer than 200
    microtasks. In ReporterAgent.completeMicrotask the completed count is
    incremented rather than derived, and the status becomes 'done' exactly
    when the derived percent reaches 100 (otherwise a pending deadline
    moves to 'in_progress'). -/
theorem C1_completion_amended :
    (∀ now mid res d, (smmCompleteInDeadline now mid res d).status = d.status) ∧
    (∀ now mid res d,
      (smmCompleteInDeadline now mid res d).completedMicrotasks =
        countDone (smmCompleteInDeadline now mid res d).microtasks ∧
      (smmCompleteInDeadline now mid res d).progressPercent =
        (if (smmCompleteInDeadline now mid res d).microtasks.length > 0 then
          jsRoundPct (countDone (smmCompleteInDeadline now mid res d).microtasks)
            (smmCompleteInDeadline now mid res d).microtasks.length
        else 0)) ∧
    (∀ n, 1 ≤ n → jsRoundPct n n = 100) ∧
    (∀ k n, k < n → n < 200 → jsRoundPct k n < 100) ∧
    (∀ now mid res d,
      (reporterCompleteInDeadline now mid res d).completedMicrotasks = d.completedMicrotasks + 1 ∧
      ((reporterCompleteInDeadline now mid res d).progressPercent = 100 →
        (reporterCompleteInDeadline now mid res d).status = .done) ∧
      ((reporterCompleteInDeadline now mid res d).progressPercent ≠ 100 →
        (reporterCompleteInDeadline now mid res d).status =
          (if d.status = .pending then .in_progress else d.status))) := by
  refine ⟨?_, ?_, ?_, ?_, ?_⟩
  · intro now mid res d
    rfl
  · intro now mid res d
    exact ⟨rfl, rfl⟩
  · intro n hn
    unfold jsRoundPct
    have : 200 * n + n = 2 * n * 100 + n := by ring
    rw [this, Nat.mul_add_div (by omega), Nat.div_eq_of_lt (by omega)]
  · intro k n hk hn
    unfold jsRoundPct
    rw [Nat.div_lt_iff_lt_mul (by omega)]
    omega
  · intro now mid res d
    refine ⟨rfl, ?_, ?_⟩
    · intro hpp
      simp only [reporterCompleteInDeadline] at hpp ⊢
      simp [hpp]
    · intro hpp
      simp only [reporterCompleteInDeadline] at hpp ⊢
      simp [hpp]

/-- Witness for C1 as amended, exercising each hypothesis at concrete
    inputs. -/
theorem C1_completion_amended_witness :
    jsRoundPct 3 3 = 100 ∧ jsRoundPct 2 3 < 100 ∧
    (reporterCompleteInDeadline 0 "a" none dTwoTasks).status = DeadlineStatus.in_progress := by
  refine ⟨C1_completion_amended.2.2.1 3 (by omega), C1_completion_amended.2.2.2.1 2 3 (by omega) (by omega), ?_⟩
  have h := (C1_completion_amended.2.2.2.2 0 "a" none dTwoTasks).2.2 (by decide)
  rw [h]
  decide

theorem decompose_two_weeks (title : String) (bM : Nat) :
    decomposeMicrotasks title 2 bM =
      [mkStageMicrotask title bM 0 "Planning" 2 "Define scope",
       mkStageMicrotask title bM 1 "Planning" 2 "Research similar work",
       mkStageMicrotask title bM 2 "Planning" 2 "Create outline",
       mkStageMicrotask title bM 3 "Building" 1 "Draft main content",
       mkStageMicrotask title bM 4 "Building" 1 "Gather data",
       mkStageMicrotask title bM 5 "Building" 1 "Build structure",
       mkStageMicrotask title bM 6 "Refining" 1 "Review draft",
       mkStageMicrotask title bM 7 "Refining" 1 "Fill gaps",
       mkStageMicrotask title bM 8 "Refining" 1 "Polish",
       mkStageMicrotask title bM 9 "Finalizing" 1 "Final review",
       mkStageMicrotask title bM 10 "Finalizing" 1 "Format check",
       mkStageMicrotask title bM 11 "Finalizing" 1 "Submit"] := by
  norm_num [decomposeMicrotasks, reporterStages]

theorem reporter_complete_head (now : Int) (d : Deadline) (m : Microtask) (ms : List Microtask)
    (hms : d.microtasks = m :: ms) (res : Option String) :
    (Reporter_completeMicrotask now [d] d.id m.id res).2 =
      some (jsRoundPct (d.completedMicrotasks + 1) d.microtasks.length) := by
  unfold Reporter_completeMicrotask
  simp only [List.find?, beq_self_eq_true, hms]
  simp only [reporterCompleteInDeadline, length_updateFirstBy, hms]

/-- C6 counterexample. Creating a deadline due in exactly 2 weeks
    (now = 0, dueDate = 1209600000 ms) through
    ReporterAgent.createDeadline yields phase 'focusing' as claimed, but
    auto-generates 12 microtasks (three per stage template), not 4, and
    completing the first auto-generated microtask yields
    progressPercent 8, not 25. -/
theorem C6_counterexample :
    (Reporter_createDeadline 0 0 0 "paper" "revision" 1209600000 []).2.phase = DeadlinePhase.focusing ∧
    (Reporter_createDeadline 0 0 0 "paper" "revision" 1209600000 []).2.microtasks.length = 12 ∧
    ¬ (Reporter_createDeadline 0 0 0 "paper" "revision" 1209600000 []).2.microtasks.length = 4 ∧
    (Reporter_completeMicrotask 0 [(Reporter_createDeadline 0 0 0 "paper" "revision" 1209600000 []).2]
        "deadline-0" "mt-0-0" none).2 = some 8 ∧
    ¬ (Reporter_completeMicrotask 0 [(Reporter_createDeadline 0 0 0 "paper" "revision" 1209600000 []).2]
        "deadline-0" "mt-0-0" none).2 = some 25 := by
  decide

/-- C6 as amended. For every deadline created through the reporting worker
    with a due date exactly 2 weeks out, the phase is 'focusing' and the
    decomposition yields 12 microtasks (3 for each of the four stage
    templates, the Building/Refining/Finalizing week offsets clipped to
    ≥ 1), so completing the first auto-generated microtask makes
    progressPercent equal 8. -/
theorem C6_two_week_deadline_amended (now now2 dueDate : Int) (title desc : String) (bD bM : Nat)
    (h2w : jsCeilDiv (dueDate - now) weekMs = 2) :
    (Reporter_createDeadline now bD bM title desc dueDate []).2.phase = DeadlinePhase.focusing ∧
    (Reporter_createDeadline now bD bM title desc dueDate []).2.microtasks.length = 12 ∧
    (Reporter_completeMicrotask now2 [(Reporter_createDeadline now bD bM title desc dueDate []).2]
        ((Reporter_createDeadline now bD bM title desc dueDate []).2.id)
        ("mt-" ++ toString bM ++ "-0") none).2 = some 8 := by
  have hdm : (Reporter_createDeadline now bD bM title desc dueDate []).2.microtasks =
      decomposeMicrotasks title 2 bM := by
    simp [Reporter_createDeadline, h2w]
  have hphase : (Reporter_createDeadline now bD bM title desc dueDate []).2.phase =
      calculatePhase 2 := by
    simp [Reporter_createDeadline, h2w]
  have hcm : (Reporter_createDeadline now bD bM title desc dueDate []).2.completedMicrotasks = 0 := by
    simp [Reporter_createDeadline]
  refine ⟨?_, ?_, ?_⟩
  · rw [hphase]
    decide
  · rw [hdm, decompose_two_weeks]
    rfl
  · have hid0 : ("mt-" ++ toString bM ++ "-0") = (mkStageMicrotask title bM 0 "Planning" 2 "Define scope").id := by
      simp only [mkStageMicrotask, String.append_assoc]
      congr 1
    rw [hid0]
    rw [reporter_complete_head now2 _ _ _ (by rw [hdm, decompose_two_weeks]) none]
    rw [hcm, hdm, decompose_two_weeks]
    simp only [List.length_cons, List.length_nil]
    norm_num [jsRoundPct]

/-- Witness for C6 as amended at now = 0, dueDate = 2 weeks in ms. -/
theorem C6_two_week_deadline_amended_witness :
    (Reporter_createDeadline 0 3 7 "paper" "revision" 1209600000 []).2.phase = DeadlinePhase.focusing ∧
    (Reporter_createDeadline 0 3 7 "paper" "revision" 1209600000 []).2.microtasks.length = 12 ∧
    (Reporter_completeMicrotask 5 [(Reporter_createDeadline 0 3 7 "paper" "revision" 1209600000 []).2]
        ((Reporter_createDeadline 0 3 7 "paper" "revision" 1209600000 []).2.id)
        ("mt-" ++ toString 7 ++ "-0") none).2 = some 8 :=
  C6_two_week_deadline_amended 0 5 1209600000 "paper" "revision" 3 7 (by decide)

theorem trendOf_band (score : Int) (prev : List Int) (h2 : 2 ≤ prev.length) :
    (((score : ℚ) - (prev.sum : ℚ) / (prev.length : ℚ) < -2) → trendOf score prev = some Trend.improving) ∧
    ((2 < (score : ℚ) - (prev.sum : ℚ) / (prev.length : ℚ)) → trendOf score prev = some Trend.declining) ∧
    (((-2 : ℚ) ≤ (score : ℚ) - (prev.sum : ℚ) / (prev.length : ℚ) ∧
      (score : ℚ) - (prev.sum : ℚ) / (prev.length : ℚ) ≤ 2) → trendOf score prev = some Trend.stable) := by
  set nn := prev.length with hnn
  set s := prev.sum with hs
  have hNpos : (0 : ℚ) < (nn : ℚ) := by
    have : 0 < nn := by omega
    exact_mod_cast this
  have hprod : ((score : ℚ) - (s : ℚ) / (nn : ℚ)) * (nn : ℚ) =
      (score : ℚ) * (nn : ℚ) - (s : ℚ) := by
    field_simp
  have himp : ((score : ℚ) - (s : ℚ) / (nn : ℚ) < -2) →
      ((nn : Int) * score - s < -2 * (nn : Int)) := by
    intro hlt
    have h1 := mul_lt_mul_of_pos_right hlt hNpos
    rw [hprod] at h1
    have h4 : (((nn : Int) * score - s : Int) : ℚ) < ((-2 * (nn : Int) : Int) : ℚ) := by
      push_cast
      ring_nf
      ring_nf at h1
      linarith
    exact_mod_cast h4
  have hdec : (2 < (score : ℚ) - (s : ℚ) / (nn : ℚ)) →
      (2 * (nn : Int) < (nn : Int) * score - s) := by
    intro hlt
    have h1 := mul_lt_mul_of_pos_right hlt hNpos
    rw [hprod] at h1
    have h4 : ((2 * (nn : Int) : Int) : ℚ) < (((nn : Int) * score - s : Int) : ℚ) := by
      push_cast
      ring_nf
      ring_nf at h1
      linarith
    exact_mod_cast h4
  have hstab : ((-2 : ℚ) ≤ (score : ℚ) - (s : ℚ) / (nn : ℚ) ∧
      (score : ℚ) - (s : ℚ) / (nn : ℚ) ≤ 2) →
      (¬ ((nn : Int) * score - s < -2 * (nn : Int)) ∧
       ¬ (2 * (nn : Int) < (nn : Int) * score - s)) := by
    intro hband
    constructor
    · intro hbad
      have hq : (((nn : Int) * score - s : Int) : ℚ) < ((-2 * (nn : Int) : Int) : ℚ) := by
        exact_mod_cast hbad
      have h1 := mul_le_mul_of_nonneg_right hband.1 (le_of_lt hNpos)
      rw [hprod] at h1
      push_cast at hq
      ring_nf at hq h1
      linarith
    · intro hbad
      have hq : ((2 * (nn : Int) : Int) : ℚ) < (((nn : Int) * score - s : Int) : ℚ) := by
        exact_mod_cast hbad
      have h1 := mul_le_mul_of_nonneg_right hband.2 (le_of_lt hNpos)
      rw [hprod] at h1
      push_cast at hq
      ring_nf at hq h1
      linarith
  refine ⟨?_, ?_, ?_⟩
  · intro hlt
    have hi := himp hlt
    simp only [trendOf, if_pos h2, if_pos hi]
  · intro hlt
    have hd := hdec hlt
    have hni : ¬ ((nn : Int) * score - s < -2 * (nn : Int)) := by
      have h2n : (0 : Int) < (nn : Int) := by exact_mod_cast (by omega : 0 < prev.length)
      omega
    simp only [trendOf, if_pos h2, if_neg hni, if_pos hd]
  · intro hband
    have hst := hstab hband
    simp only [trendOf, if_pos h2, if_neg hst.1, if_neg hst.2]

/-- C7 counterexample. With exactly one prior phq-9 assessment of total
    score 0, a new total score of 100 is more than 2 points above the
    average of the prior scores, yet recordAssessment leaves the trend
    unset instead of setting 'declining': the code assigns a trend only
    when at least 2 prior assessments exist. -/
theorem C7_counterexample :
    priorScores [{ questionnaire := "phq-9", date := 1, totalScore := 0 }] "phq-9" = [0] ∧
    (recordAssessment 10 [{ questionnaire := "phq-9", date := 1, totalScore := 0 }] "phq-9" 100).2.trend = none ∧
    ¬ (recordAssessment 10 [{ questionnaire := "phq-9", date := 1, totalScore := 0 }] "phq-9" 100).2.trend
        = some Trend.declining := by
  decide

/-- C7 as amended. When at least 2 prior same-questionnaire assessments
    exist, recordAssessment derives the new assessment's trend from the
    average of the up-to-3 most recent prior total scores compared against
    a ±2-point band: a new score more than 2 points below that average
    yields 'improving', more than 2 points above yields 'declining', and
    within the band yields 'stable'. With fewer than 2 prior assessments no
    trend is assigned. -/
theorem C7_trend_amended (now : Int) (l : List Assessment) (qid : String) (score : Int) :
    (2 ≤ (priorScores l qid).length →
      (((score : ℚ) - ((priorScores l qid).sum : ℚ) / ((priorScores l qid).length : ℚ) < -2) →
        (recordAssessment now l qid score).2.trend = some Trend.improving) ∧
      ((2 < (score : ℚ) - ((priorScores l qid).sum : ℚ) / ((priorScores l qid).length : ℚ)) →
        (recordAssessment now l qid score).2.trend = some Trend.declining) ∧
      (((-2 : ℚ) ≤ (score : ℚ) - ((priorScores l qid).sum : ℚ) / ((priorScores l qid).length : ℚ) ∧
        (score : ℚ) - ((priorScores l qid).sum : ℚ) / ((priorScores l qid).length : ℚ) ≤ 2) →
        (recordAssessment now l qid score).2.trend = some Trend.stable)) ∧
    ((priorScores l qid).length < 2 → (recordAssessment now l qid score).2.trend = none) ∧
    (priorScores l qid).length ≤ 3 := by
  have htrend : (recordAssessment now l qid score).2.trend = trendOf score (priorScores l qid) := rfl
  refine ⟨?_, ?_, ?_⟩
  · intro h2
    have hb := trendOf_band score (priorScores l qid) h2
    exact ⟨fun h => htrend.trans (hb.1 h), fun h => htrend.trans (hb.2.1 h),
      fun h => htrend.trans (hb.2.2 h)⟩
  · intro hlt
    rw [htrend]
    unfold trendOf
    rw [if_neg (by omega)]
  · unfold priorScores getAssessmentHistory
    simp only [List.length_map]
    norm_num

/-- Witness for C7 as amended: two priors with scores 1 and 0, new score
    100, more than 2 above the average 1/2, gives 'declining'. -/
theorem C7_trend_amended_witness :
    (recordAssessment 10 c7hist "phq-9" 100).2.trend = some Trend.declining := by
  have h := (C7_trend_amended 10 c7hist "phq-9" 100).1 (by decide)
  apply h.2.1
  have e1 : priorScores c7hist "phq-9" = [1, 0] := by decide
  rw [e1]
  norm_num

/-- C5 counterexample. Not every mutating accessor sets the dirty flag:
    clearCurrentTask and setProjectContext change the state of a clean
    store while leaving the flag unset, so the following auto-save tick
    writes nothing. -/
theorem C5_counterexample :
    ¬ SMM_clearCurrentTask c5state = c5state ∧
    (SMM_clearCurrentTask c5state).isDirty = false ∧
    ¬ SMM_setProjectContext c5state "ctx" = c5state ∧
    (SMM_setProjectContext c5state "ctx").isDirty = false ∧
    SMM_autoSaveTick (SMM_clearCurrentTask c5state) = (SMM_clearCurrentTask c5state, false) := by
  decide

/-- C5 as amended. The persisted-data mutators (current task, messages, new
    key facts, summary, contacts, deadlines, microtasks, journal entries,
    assessments, user profile) set the dirty flag, but the working-memory
    mutators clearCurrentTask / addActiveFile / removeActiveFile /
    recordAction and setProjectContext do not. The periodic auto-save
    (default interval 60000 ms, a configured 0 also falling back to the
    default) writes only when the flag is set and then clears it, and
    dispose stops the timer and forces one final flush exactly when the
    flag is set. -/
theorem C5_dirty_flag_amended :
    (∀ s t, (SMM_setCurrentTask s t).isDirty = true) ∧
    (∀ s m, (SMM_addMessage s m).isDirty = true) ∧
    (∀ s f, s.keyFacts.contains f = false → (SMM_addKeyFact s f).isDirty = true) ∧
    (∀ s v, (SMM_setSummary s v).isDirty = true) ∧
    (∀ s i c, (SMM_addContact s i c).isDirty = true) ∧
    (∀ s cid f, s.contacts.any (fun c => c.id == cid) = true → (SMM_updateContact s cid f).isDirty = true) ∧
    (∀ s cid, (SMM_removeContact s cid).2 = true → (SMM_removeContact s cid).1.isDirty = true) ∧
    (∀ now s i d, (SMM_addDeadline now s i d).isDirty = true) ∧
    (∀ s did f, s.deadlines.any (fun d => d.id == did) = true → (SMM_updateDeadline s did f).isDirty = true) ∧
    (∀ now s did i m, s.deadlines.any (fun d => d.id == did) = true → (SMM_addMicrotask now s did i m).isDirty = true) ∧
    (∀ now s did mid res, (SMM_completeMicrotaskState now s did mid res).2 = true →
      (SMM_completeMicrotaskState now s did mid res).1.isDirty = true) ∧
    (∀ s e, (SMM_addJournalEntry s e).isDirty = true) ∧
    (∀ now s qid sc, (SMM_recordAssessment now s qid sc).isDirty = true) ∧
    (∀ s u, (SMM_updateUserProfile s u).isDirty = true) ∧
    (∀ s, (SMM_clearCurrentTask s).isDirty = s.isDirty) ∧
    (∀ s f, (SMM_addActiveFile s f).isDirty = s.isDirty) ∧
    (∀ s f, (SMM_removeActiveFile s f).isDirty = s.isDirty) ∧
    (∀ s a, (SMM_recordAction s a).isDirty = s.isDirty) ∧
    (∀ s p, (SMM_setProjectContext s p).isDirty = s.isDirty) ∧
    (∀ s, s.isDirty = true → SMM_autoSaveTick s = ({ s with isDirty := false }, true)) ∧
    (∀ s, s.isDirty = false → SMM_autoSaveTick s = (s, false)) ∧
    effectiveAutoSaveInterval none = 60000 ∧
    effectiveAutoSaveInterval (some 0) = 60000 ∧
    (∀ s, (SMM_dispose s).1.autoSaveTimer = false ∧ (SMM_dispose s).2 = s.isDirty) := by
  refine ⟨fun s t => rfl, fun s m => rfl, ?_, fun s v => rfl, fun s i c => rfl, ?_, ?_,
    fun now s i d => rfl, ?_, ?_, ?_, fun s e => rfl, fun now s qid sc => rfl, fun s u => rfl,
    fun s => rfl, ?_, fun s f => rfl, fun s a => rfl, fun s p => rfl, ?_, ?_, rfl, rfl,
    fun s => ⟨rfl, rfl⟩⟩
  · intro s f h
    unfold SMM_addKeyFact
    rw [if_neg (by rw [h]; simp)]
  · intro s cid f h
    unfold SMM_updateContact
    rw [if_pos h]
  · intro s cid h
    unfold SMM_removeContact at h ⊢
    by_cases hc : (s.contacts.filter (fun c => c.id ≠ cid)).length ≠ s.contacts.length
    · rw [if_pos hc]
    · rw [if_neg hc] at h
      simp at h
  · intro s did f h
    unfold SMM_updateDeadline
    rw [if_pos h]
  · intro now s did i m h
    unfold SMM_addMicrotask
    rw [if_pos h]
  · intro now s did mid res h
    unfold SMM_completeMicrotaskState at h ⊢
    by_cases hc : (SMM_completeMicrotask now s.deadlines did mid res).2 = true
    · rw [if_pos hc]
    · rw [if_neg hc] at h
      simp at h
  · intro s f
    unfold SMM_addActiveFile
    split <;> rfl
  · intro s h
    unfold SMM_autoSaveTick
    rw [if_pos h]
  · intro s h
    unfold SMM_autoSaveTick
    rw [if_neg (by rw [h]; simp)]

/-- Witness for C5 as amended, discharging each conditional part at a
    concrete input. -/
theorem C5_dirty_flag_amended_witness :
    (SMM_addKeyFact {} "f").isDirty = true ∧
    (SMM_updateContact { contacts := [{ id := "c" }] } "c" id).isDirty = true ∧
    (SMM_removeContact { contacts := [{ id := "c" }] } "c").1.isDirty = true ∧
    (SMM_updateDeadline { deadlines := [dOneTask] } "d" id).isDirty = true ∧
    (SMM_addMicrotask 0 { deadlines := [dOneTask] } "d" "m2" { id := "", status := .pending }).isDirty = true ∧
    (SMM_completeMicrotaskState 0 { deadlines := [dOneTask] } "d" "a" none).1.isDirty = true ∧
    SMM_autoSaveTick { isDirty := true } = ({ isDirty := false }, true) ∧
    SMM_autoSaveTick {} = ({}, false) := by
  obtain ⟨h1, h2, h3, h4, h5, h6, h7, h8, h9, h10, h11, h12, h13, h14, h15, h16, h17, h18,
    h19, h20, h21, h22, h23, h24⟩ := C5_dirty_flag_amended
  exact ⟨h3 {} "f" (by decide),
    h6 { contacts := [{ id := "c" }] } "c" id (by decide),
    h7 { contacts := [{ id := "c" }] } "c" (by decide),
    h9 { deadlines := [dOneTask] } "d" id (by decide),
    h10 0 { deadlines := [dOneTask] } "d" "m2" { id := "", status := .pending } (by decide),
    h11 0 { deadlines := [dOneTask] } "d" "a" none (by decide),
    h20 { isDirty := true } rfl,
    h21 {} rfl⟩

theorem cleanupLoop_snd : ∀ (ids remaining : List String),
    (cleanupLoop remaining ids).2 = ids.map (fun id => (id, "VM stopped")) := by
  intro ids
  induction ids with
  | nil => intro remaining; rfl
  | cons id rest ih =>
    intro remaining
    simp only [cleanupLoop, ih, List.map_cons]

theorem cleanupLoop_fst : ∀ (ids remaining : List String),
    (cleanupLoop remaining ids).1 = ids.foldl (fun acc x => acc.erase x) remaining := by
  intro ids
  induction ids with
  | nil => intro remaining; rfl
  | cons id rest ih =>
    intro remaining
    simp only [cleanupLoop, ih, List.foldl_cons]

theorem foldl_erase_self : ∀ l : List String, List.foldl (fun acc x => acc.erase x) l l = [] := by
  intro l
  induction l with
  | nil => rfl
  | cons a rest ih =>
    simp only [List.foldl_cons, List.erase_cons_head]
    exact ih

/-- C3. If the VM helper process exits after the ready handshake while
    requests are outstanding, the exit handler runs cleanup: every
    outstanding request id is rejected exactly once (the rejection list
    carries the pending ids in order), each with the one synthetic
    'VM stopped' error, the pending map is emptied, running becomes false,
    and the 'stopped' lifecycle event is emitted; no startup rejection
    occurs in the initialized case. -/
theorem C3_bridge_exit_rejects_all (s : VMState) (code : Int) :
    ((VM_onBridgeExit true code s).2.1).map Prod.fst = s.pending ∧
    (∀ e ∈ (VM_onBridgeExit true code s).2.1, e.2 = "VM stopped") ∧
    (VM_onBridgeExit true code s).1.pending = [] ∧
    (VM_onBridgeExit true code s).1.running = false ∧
    (VM_onBridgeExit true code s).2.2.1 = ["stopped"] ∧
    (VM_onBridgeExit true code s).2.2.2 = none := by
  have hsnd : (VM_onBridgeExit true code s).2.1 = s.pending.map (fun id => (id, "VM stopped")) := by
    unfold VM_onBridgeExit VM_cleanup
    simp only [cleanupLoop_snd]
  have hfst : (VM_onBridgeExit true code s).1.pending = [] := by
    unfold VM_onBridgeExit VM_cleanup
    simp only [cleanupLoop_fst, foldl_erase_self]
  refine ⟨?_, ?_, hfst, rfl, rfl, rfl⟩
  · rw [hsnd, List.map_map]
    have hcomp : (Prod.fst ∘ fun id : String => (id, "VM stopped")) = fun id => id := rfl
    rw [hcomp, List.map_id']
  · intro e he
    rw [hsnd] at he
    simp only [List.mem_map] at he
    obtain ⟨id, _, rid⟩ := he
    rw [← rid]

/-- Witness for C3 at a concrete state with two outstanding commands. -/
theorem C3_bridge_exit_rejects_all_witness :
    ((VM_onBridgeExit true 1 { running := true, bridgeAlive := true, pending := ["cmd-1", "cmd-2"] }).2.1).map
        Prod.fst = ["cmd-1", "cmd-2"] ∧
    (VM_onBridgeExit true 1 { running := true, bridgeAlive := true, pending := ["cmd-1", "cmd-2"] }).1.pending
        = [] := by
  have h := C3_bridge_exit_rejects_all { running := true, bridgeAlive := true, pending := ["cmd-1", "cmd-2"] } 1
  exact ⟨h.1, h.2.2.1⟩

/-- C2. The promise built by DockerIsolationManager.execute races the
    stream end against a setTimeout of the requested timeout (default
    30000 ms when omitted): when the command is still running at the
    timeout, execute rejects with the timeout error at exactly the timeout
    instant rather than waiting for completion, and a command that ends
    before the timeout resolves at its completion instant. The VM backend
    additionally rejects any bridge command still pending after 60000 ms
    with its own timeout error. -/
theorem C2_execute_timeout :
    (∀ (completesAt : Option Nat) (r : ExecResult) (tOpt : Option Nat),
      (∀ c, completesAt = some c → tOpt.getD 30000 ≤ c) →
      dockerExecute true completesAt r tOpt =
        .timeoutError (tOpt.getD 30000)
          ("Command timeout after " ++ toString (tOpt.getD 30000) ++ "ms")) ∧
    (∀ completesAt r, dockerExecute true completesAt r none = dockerExecute true completesAt r (some 30000)) ∧
    (∀ c r tOpt, c < tOpt.getD 30000 → dockerExecute true (some c) r tOpt = .resolved c r) ∧
    (∀ completesAt r tOpt, dockerExecute false completesAt r tOpt = .notRunningError) ∧
    (∀ cmd (responseAt : Option Nat), (∀ t, responseAt = some t → 60000 ≤ t) →
      vmSendCommand cmd true responseAt = .timedOut 60000 ("Command timeout: " ++ cmd)) := by
  refine ⟨?_, ?_, ?_, ?_, ?_⟩
  · intro completesAt r tOpt h
    cases completesAt with
    | none => rfl
    | some c =>
      have hc := h c rfl
      simp [dockerExecute, Nat.not_lt.mpr hc]
  · intro completesAt r
    rfl
  · intro c r tOpt h
    simp [dockerExecute, h]
  · intro completesAt r tOpt
    rfl
  · intro cmd responseAt h
    cases responseAt with
    | none => rfl
    | some t =>
      have ht := h t rfl
      simp [vmSendCommand, Nat.not_lt.mpr ht]

/-- Witness for C2: a command that would finish at 5000 ms with timeout 1
    ms rejects at 1 ms; the VM path with a response that never arrives
    rejects at 60000 ms. -/
theorem C2_execute_timeout_witness :
    dockerExecute true (some 5000) {} (some 1) =
      DockerExecOutcome.timeoutError 1 ("Command timeout after " ++ toString 1 ++ "ms") ∧
    dockerExecute true (some 100) {} none = dockerExecute true (some 100) {} (some 30000) ∧
    dockerExecute true (some 100) {} (some 200) = DockerExecOutcome.resolved 100 {} ∧
    vmSendCommand "exec" true none = VMCmdOutcome.timedOut 60000 ("Command timeout: " ++ "exec") := by
  obtain ⟨h1, h2, h3, _, h5⟩ := C2_execute_timeout
  exact ⟨h1 (some 5000) {} (some 1) (by intro c hc; cases hc; decide),
    h2 (some 100) {},
    h3 100 {} (some 200) (by decide),
    h5 "exec" none (by intro t ht; cases ht)⟩

/-- C4 counterexample. The text "debug my pubmed search" contains the word
    "pubmed" but is routed to the code worker, not the research worker,
    because the code-keyword rule is tested first and "debug" matches it:
    containing "pubmed" does not by itself imply research routing. -/
theorem C4_counterexample :
    containsWordB (jsToLower "debug my pubmed search") "pubmed" = true ∧
    analyzeIntent "debug my pubmed search" = "code" ∧
    routeToAgent (analyzeIntent "debug my pubmed search") = AgentRole.coder ∧
    ¬ routeToAgent (analyzeIntent "debug my pubmed search") = AgentRole.researcher := by
  decide

/-- C4 as amended. Intent classification applies the ordered keyword rules
    to the lowercased text with first match winning: any text containing
    the word "debug" is routed to the code worker (the code rule is
    first); any text containing "pubmed" whose lowercased form matches no
    code-rule keyword is routed to the research worker; and any text
    matching none of the seven keyword classes is routed to the primary
    worker (companion). -/
theorem C4_routing_amended (content : String) :
    (containsWordB (jsToLower content) "debug" = true →
      routeToAgent (analyzeIntent content) = AgentRole.coder) ∧
    (containsWordB (jsToLower content) "pubmed" = true →
      ruleMatches (jsToLower content) ruleCode = false →
      routeToAgent (analyzeIntent content) = AgentRole.researcher) ∧
    (ruleMatches (jsToLower content) ruleCode = false →
      ruleMatches (jsToLower content) ruleResearch = false →
      ruleMatches (jsToLower content) ruleEmail = false →
      ruleMatches (jsToLower content) ruleDeadlineWords = false →
      ruleMatches (jsToLower content) ruleJournal = false →
      ruleMatches (jsToLower content) ruleQuestionnaire = false →
      ruleMatches (jsToLower content) ruleDigest = false →
      routeToAgent (analyzeIntent content) = AgentRole.companion) := by
  refine ⟨?_, ?_, ?_⟩
  · intro h
    have hm : ruleMatches (jsToLower content) ruleCode = true := by
      apply List.any_eq_true.mpr
      exact ⟨"debug", by simp [ruleCode], h⟩
    unfold analyzeIntent
    rw [if_pos hm]
    rfl
  · intro h hc
    have hm : ruleMatches (jsToLower content) ruleResearch = true := by
      apply List.any_eq_true.mpr
      exact ⟨"pubmed", by simp [ruleResearch], h⟩
    unfold analyzeIntent
    rw [if_neg (by rw [hc]; simp), if_pos hm]
    rfl
  · intro h1 h2 h3 h4 h5 h6 h7
    unfold analyzeIntent
    rw [if_neg (by rw [h1]; simp), if_neg (by rw [h2]; simp), if_neg (by rw [h3]; simp),
      if_neg (by rw [h4]; simp), if_neg (by rw [h5]; simp), if_neg (by rw [h6]; simp),
      if_neg (by rw [h7]; simp)]
    rfl

/-- Witness for C4 as amended at three concrete texts: "debug it" to the
    coder, "look in pubmed" to the researcher, "zzz qqq" (no keyword) to
    the companion. -/
theorem C4_routing_amended_witness :
    routeToAgent (analyzeIntent "debug it") = AgentRole.coder ∧
    routeToAgent (analyzeIntent "look in pubmed") = AgentRole.researcher ∧
    routeToAgent (analyzeIntent "zzz qqq") = AgentRole.companion :=
  ⟨(C4_routing_amended "debug it").1 (by decide),
   (C4_routing_amended "look in pubmed").2.1 (by decide) (by decide),
   (C4_routing_amended "zzz qqq").2.2 (by decide) (by decide) (by decide) (by decide)
     (by decide) (by decide) (by decide)⟩

/-- C8 counterexample. A task that already carries delegatedBy = reporter
    is forwarded to an idle coder with delegatedBy overwritten to
    companion: the spread { ...task, delegatedBy: this.role } always
    replaces the provenance field. -/
theorem C8_counterexample :
    (delegateToAgent { agentPool := [(AgentRole.coder, true)] } AgentRole.coder
        { id := "t1", ttype := "code", delegatedBy := some AgentRole.reporter }).2.1 =
      DelegationOutcome.invokedAgent AgentRole.coder
        { id := "t1", ttype := "code", delegatedBy := some AgentRole.companion } ∧
    ¬ (delegateToAgent { agentPool := [(AgentRole.coder, true)] } AgentRole.coder
        { id := "t1", ttype := "code", delegatedBy := some AgentRole.reporter }).2.1 =
      DelegationOutcome.invokedAgent AgentRole.coder
        { id := "t1", ttype := "code", delegatedBy := some AgentRole.reporter } := by
  decide

/-- C8 as amended. Whenever the companion forwards a task to a specialist,
    the task passed to it carries delegatedBy = companion (the forwarding
    worker), overwriting any incoming value; all other fields are carried
    over unchanged. -/
theorem C8_delegatedBy_amended (s : CompanionState) (role : AgentRole) (task : AgentTask)
    (r : AgentRole) (fwd : AgentTask)
    (hout : (delegateToAgent s role task).2.1 = DelegationOutcome.invokedAgent r fwd) :
    fwd.delegatedBy = some AgentRole.companion ∧ fwd.id = task.id ∧ fwd.ttype = task.ttype ∧
    fwd.input = task.input ∧ fwd.priority = task.priority ∧ fwd.deadline = task.deadline ∧
    r = role := by
  unfold delegateToAgent at hout
  cases hpool : poolLookup s.agentPool role with
  | none =>
    rw [hpool] at hout
    simp at hout
  | some avail =>
    rw [hpool] at hout
    cases avail with
    | false => simp at hout
    | true =>
      simp only [if_pos rfl, Bool.true_eq_false, if_true] at hout
      have h1 : r = role ∧ fwd = forwardedTask task := by
        have := hout
        simp only [DelegationOutcome.invokedAgent.injEq] at this
        exact ⟨this.1.symm, this.2.symm⟩
      obtain ⟨hr, hf⟩ := h1
      subst hr
      subst hf
      exact ⟨rfl, rfl, rfl, rfl, rfl, rfl, rfl⟩

/-- Witness for C8 as amended at a concrete idle coder and a task with
    prior provenance. -/
theorem C8_delegatedBy_amended_witness :
    ({ id := "t1", ttype := "code", delegatedBy := some AgentRole.companion } : AgentTask).delegatedBy
      = some AgentRole.companion ∧
    ({ id := "t1", ttype := "code", delegatedBy := some AgentRole.companion } : AgentTask).id = "t1" := by
  have h := C8_delegatedBy_amended { agentPool := [(AgentRole.coder, true)] } AgentRole.coder
    { id := "t1", ttype := "code", delegatedBy := some AgentRole.reporter }
    AgentRole.coder { id := "t1", ttype := "code", delegatedBy := some AgentRole.companion }
    (by decide)
  exact ⟨h.1, h.2.1⟩

theorem mem_keys_setAssoc {α : Type} (m : List (String × α)) (k k' : String) (v : α)
    (h : k' ∈ m.map Prod.fst) : k' ∈ (setAssoc m k v).map Prod.fst := by
  unfold setAssoc
  by_cases hc : m.any (fun e => e.1 == k)
  · rw [if_pos hc, List.map_map]
    have hcong : ∀ e ∈ m, (Prod.fst ∘ fun e => bif e.1 == k then (k, v) else e) e = e.1 := by
      intro e _
      by_cases he : (e.1 == k) = true
      · have : e.1 = k := by simpa using he
        simp [he, this]
      · simp [Bool.eq_false_iff.mpr he]
    rw [List.map_congr_left hcong]
    exact h
  · rw [if_neg hc, List.map_append]
    exact List.mem_append_left _ h

theorem mem_keys_setAssoc_self {α : Type} (m : List (String × α)) (k : String) (v : α) :
    k ∈ (setAssoc m k v).map Prod.fst := by
  unfold setAssoc
  by_cases hc : m.any (fun e => e.1 == k)
  · rw [if_pos hc, List.map_map]
    obtain ⟨e, hem, hek⟩ := List.any_eq_true.mp hc
    apply List.mem_map.mpr
    refine ⟨e, hem, ?_⟩
    simp [hek]
  · rw [if_neg hc, List.map_append]
    apply List.mem_append_right
    simp

theorem companionAddKeyFact_pending (s : CompanionState) (f : String) :
    (companionAddKeyFact s f).pendingDelegations = s.pendingDelegations := by
  unfold companionAddKeyFact
  split <;> rfl

theorem companionJournal_pending (s : CompanionState) (nowId : Int) (t : AgentTask) :
    (companionJournal s nowId t).pendingDelegations = s.pendingDelegations := by
  unfold companionJournal
  cases t.input.mood with
  | none =>
    cases t.input.energy with
    | none => rfl
    | some e =>
      simp only []
      split
      · rw [companionAddKeyFact_pending]
      · rfl
  | some m =>
    cases t.input.energy with
    | none =>
      simp only []
      split
      · rw [companionAddKeyFact_pending]
      · rfl
    | some e =>
      simp only []
      split <;> split <;> simp [companionAddKeyFact_pending]

theorem companionActivate_pending (s : CompanionState) (t : AgentTask) :
    (companionActivateDeadlineMode s t).1.pendingDelegations = s.pendingDelegations := by
  unfold companionActivateDeadlineMode
  split <;> rfl

theorem companionActivate_no_invoked (s : CompanionState) (t : AgentTask) (r : AgentRole) (t' : AgentTask) :
    ¬ CompEvent.invoked r t' ∈ (companionActivateDeadlineMode s t).2.2 := by
  unfold companionActivateDeadlineMode
  split
  · intro hmem
    simp only [List.mem_cons, List.mem_map] at hmem
    rcases hmem with h | ⟨x, _, hx⟩
    · exact CompEvent.noConfusion h
    · exact CompEvent.noConfusion hx
  · simp

theorem delegateToAgent_absent (s : CompanionState) (role : AgentRole) (task : AgentTask)
    (hpool : poolLookup s.agentPool role = none) :
    delegateToAgent s role task = (s, .handledDirectly, []) := by
  unfold delegateToAgent
  rw [hpool]

theorem delegateToAgent_busy (s : CompanionState) (role : AgentRole) (task : AgentTask)
    (hpool : poolLookup s.agentPool role = some false) :
    delegateToAgent s role task =
      ({ s with pendingDelegations := setAssoc s.pendingDelegations task.id (role, task) },
       .queuedBusy role, []) := by
  unfold delegateToAgent
  rw [hpool]
  rfl

theorem delegateToAgent_idle (s : CompanionState) (role : AgentRole) (task : AgentTask)
    (hpool : poolLookup s.agentPool role = some true) :
    delegateToAgent s role task =
      (s, .invokedAgent role (forwardedTask task), [.delegationEvt .companion role task]) := by
  unfold delegateToAgent
  rw [hpool]
  rfl

theorem companionExecute_delegating (s : CompanionState) (nowId : Int) (task : AgentTask)
    (role : AgentRole) (hdt : delegationTarget task.ttype = some role) :
    companionExecute s nowId task =
      (match (delegateToAgent s role task).2.1 with
       | .handledDirectly =>
         ((delegateToAgent s role task).1, { success := true }, (delegateToAgent s role task).2.2)
       | .queuedBusy r =>
         ((delegateToAgent s role task).1, { success := true, queued := true, queuedAgent := some r },
          (delegateToAgent s role task).2.2)
       | .invokedAgent r fwd =>
         ((delegateToAgent s role task).1, { success := true },
          (delegateToAgent s role task).2.2 ++ [CompEvent.invoked r fwd])) := by
  unfold companionExecute
  rw [hdt]

theorem companionExecute_selfRouted (s : CompanionState) (nowId : Int) (task : AgentTask)
    (hdt : delegationTarget task.ttype = none) :
    companionExecute s nowId task =
      (if task.ttype = "check_in" then (companionCheckIn s nowId, { success := true }, [])
       else if task.ttype = "questionnaire" then
         (s, { success := s.questionnaires.contains ((task.input.questionnaire).getD "") }, [])
       else if task.ttype = "journal" then (companionJournal s nowId task, { success := true }, [])
       else if task.ttype = "activate_deadline_mode" then companionActivateDeadlineMode s task
       else (s, { success := true }, [])) := by
  unfold companionExecute
  rw [hdt]

/-- C10. When the companion delegates a task to a registered specialist
    whose status is not idle, the task is inserted into the
    pendingDelegations map under its id and the call reports success with a
    queued output, emitting no event and invoking no specialist. Moreover
    no companion operation (any execute dispatch, agent registration or
    unregistration, deadline-mode deactivation) ever removes a key from
    pendingDelegations, and every specialist invocation any operation
    performs runs the forwarded copy of that operation's own incoming task
    against an idle specialist — never an entry of pendingDelegations — so
    a task queued this way is never subsequently run by the companion. -/
theorem C10_pending_delegations_never_run (s : CompanionState) :
    (∀ (nowId : Int) (task : AgentTask) (role : AgentRole),
      delegationTarget task.ttype = some role →
      poolLookup s.agentPool role = some false →
      ((companionExecute s nowId task).2.1 = { success := true, queued := true, queuedAgent := some role } ∧
       (companionExecute s nowId task).1.pendingDelegations =
         setAssoc s.pendingDelegations task.id (role, task) ∧
       task.id ∈ (companionExecute s nowId task).1.pendingDelegations.map Prod.fst ∧
       (companionExecute s nowId task).2.2 = [])) ∧
    (∀ (op : CompanionOp) (id : String), id ∈ s.pendingDelegations.map Prod.fst →
      id ∈ (companionStep op s).1.pendingDelegations.map Prod.fst) ∧
    (∀ (op : CompanionOp) (r : AgentRole) (t : AgentTask),
      CompEvent.invoked r t ∈ (companionStep op s).2 →
      ∃ nowId task, op = CompanionOp.run nowId task ∧ t = forwardedTask task ∧
        delegationTarget task.ttype = some r ∧ poolLookup s.agentPool r = some true) := by
  refine ⟨?_, ?_, ?_⟩
  · intro nowId task role hdt hpool
    rw [companionExecute_delegating s nowId task role hdt, delegateToAgent_busy s role task hpool]
    exact ⟨rfl, rfl, mem_keys_setAssoc_self _ _ _, rfl⟩
  · intro op id hid
    cases op with
    | registerAgent role avail => simpa [companionStep] using hid
    | unregisterAgent role => simpa [companionStep] using hid
    | deactivateDeadlineMode => simpa [companionStep] using hid
    | run nowId task =>
      simp only [companionStep]
      cases hdt : delegationTarget task.ttype with
      | some role =>
        rw [companionExecute_delegating s nowId task role hdt]
        cases hpool : poolLookup s.agentPool role with
        | none =>
          rw [delegateToAgent_absent s role task hpool]
          exact hid
        | some avail =>
          cases avail with
          | true =>
            rw [delegateToAgent_idle s role task hpool]
            exact hid
          | false =>
            rw [delegateToAgent_busy s role task hpool]
            exact mem_keys_setAssoc _ _ _ _ hid
      | none =>
        rw [companionExecute_selfRouted s nowId task hdt]
        split_ifs with h1 h2 h3 h4
        · simpa [companionCheckIn] using hid
        · exact hid
        · rw [companionJournal_pending]
          exact hid
        · rw [companionActivate_pending]
          exact hid
        · exact hid
  · intro op r t hmem
    cases op with
    | registerAgent role avail => simp [companionStep] at hmem
    | unregisterAgent role => simp [companionStep] at hmem
    | deactivateDeadlineMode => simp [companionStep] at hmem
    | run nowId task =>
      simp only [companionStep] at hmem
      cases hdt : delegationTarget task.ttype with
      | some role =>
        rw [companionExecute_delegating s nowId task role hdt] at hmem
        cases hpool : poolLookup s.agentPool role with
        | none =>
          rw [delegateToAgent_absent s role task hpool] at hmem
          simp at hmem
        | some avail =>
          cases avail with
          | false =>
            rw [delegateToAgent_busy s role task hpool] at hmem
            simp at hmem
          | true =>
            rw [delegateToAgent_idle s role task hpool] at hmem
            simp only [List.cons_append, List.nil_append, List.mem_cons,
              List.not_mem_nil, or_false, CompEvent.invoked.injEq] at hmem
            rcases hmem with h | ⟨hr, ht⟩
            · exact absurd h (by intro hh; exact CompEvent.noConfusion hh)
            · refine ⟨nowId, task, rfl, ht, ?_, ?_⟩
              · rw [← hr] at hdt
                exact hdt
              · rw [← hr] at hpool
                exact hpool
      | none =>
        rw [companionExecute_selfRouted s nowId task hdt] at hmem
        split_ifs at hmem with h1 h2 h3 h4
        · simp at hmem
        · simp at hmem
        · simp at hmem
        · exact absurd hmem (companionActivate_no_invoked _ _ _ _)
        · simp at hmem

/-- Witness for C10: queueing on a busy coder, key preservation through a
    later registration, and provenance of an invocation on an idle coder. -/
theorem C10_pending_delegations_never_run_witness :
    (companionExecute { agentPool := [(AgentRole.coder, false)] } 0
        { id := "t1", ttype := "code" }).2.1 =
      { success := true, queued := true, queuedAgent := some AgentRole.coder } ∧
    "t0" ∈ (companionStep (CompanionOp.registerAgent AgentRole.reporter true)
        { agentPool := [(AgentRole.coder, false)],
          pendingDelegations := [("t0", AgentRole.coder, { id := "t0", ttype := "code" })]
        }).1.pendingDelegations.map Prod.fst ∧
    (∃ nowId task, CompanionOp.run 0 { id := "t2", ttype := "code" } = CompanionOp.run nowId task ∧
      forwardedTask { id := "t2", ttype := "code" } = forwardedTask task ∧
      delegationTarget task.ttype = some AgentRole.coder ∧
      poolLookup ([(AgentRole.coder, true)] : List (AgentRole × Bool)) AgentRole.coder = some true) := by
  refine ⟨?_, ?_, ?_⟩
  · exact ((C10_pending_delegations_never_run { agentPool := [(AgentRole.coder, false)] }).1 0
      { id := "t1", ttype := "code" } AgentRole.coder (by decide) (by decide)).1
  · exact (C10_pending_delegations_never_run
      { agentPool := [(AgentRole.coder, false)],
        pendingDelegations := [("t0", AgentRole.coder, { id := "t0", ttype := "code" })] }).2.1
      (CompanionOp.registerAgent AgentRole.reporter true) "t0" (by decide)
  · exact (C10_pending_delegations_never_run { agentPool := [(AgentRole.coder, true)] }).2.2
      (CompanionOp.run 0 { id := "t2", ttype := "code" }) AgentRole.coder
      (forwardedTask { id := "t2", ttype := "code" })
      (by decide)
